import Mathlib

/-!
Verification of the tty driver in `tty.c` / `tty.h` (serial UART driver for a
teaching OS).  The driver logic (`ttyinit`, `ttyread`, `ttywrite`,
`ttycontrol`, `irqinthandc`) is embedded from `src/tty.c`; the bounded-queue
module (`queue/queue.h`, not part of the inspected sources) and the hardware
header constants (`serial.h`, `pic.h`, `tty_public.h`) are modelled from the
specification.  Hardware port writes, PIC calls and debug-log appends are
recorded as an explicit effect trace; the CPU interrupt-enable flag is
threaded through the entry points so that the `cli`/`sti` discipline is
observable.
-/

/-- Queue capacity, `#define MAXBUF 6` in `tty.h`. -/
def MAXBUF : Nat := 6

/-- Modelled from the spec: `QueueEmpty` sentinel returned by `dequeue`
(`EMPTYQUE` in `queue/queue.h`, which is not under `src/`).  Only its
distinctness from valid byte values matters. -/
def EMPTYQUE : Int := -1

/-- Modelled from the spec: `QueueFull` sentinel returned by `enqueue`
(`FULLQUE` in `queue/queue.h`, which is not under `src/`). -/
def FULLQUE : Int := -2

/-- Modelled from the spec: the interrupt-identification field mask
`UART_IIR_ID` of the UART (from `serial.h`, an external header). -/
def UART_IIR_ID : Nat := 6

/-- Modelled from the spec: "received data available" interrupt id
(`UART_IIR_RDI` from `serial.h`). -/
def UART_IIR_RDI : Nat := 4

/-- Modelled from the spec: "transmit holding register empty" interrupt id
(`UART_IIR_THRI` from `serial.h`). -/
def UART_IIR_THRI : Nat := 2

/-- Modelled from the spec: receiver-data interrupt-enable bit
(`UART_IER_RDI` from `serial.h`). -/
def UART_IER_RDI : Nat := 1

/-- Modelled from the spec: transmitter interrupt-enable bit
(`UART_IER_THRI` from `serial.h`). -/
def UART_IER_THRI : Nat := 2

/-- Modelled from the spec: COM1 base port address (`serial.h`). -/
def COM1_BASE : Nat := 0x3f8

/-- Modelled from the spec: COM2 base port address (`serial.h`). -/
def COM2_BASE : Nat := 0x2f8

/-- Modelled from the spec: COM1 interrupt line number (`serial.h`). -/
def COM1_IRQ : Nat := 4

/-- Modelled from the spec: COM2 interrupt line number (`serial.h`). -/
def COM2_IRQ : Nat := 3

/-- Modelled from the spec: offset from IRQ number to interrupt vector
number (`IRQ_TO_INT_N_SHIFT`, external header). -/
def IRQ_TO_INT_N_SHIFT : Nat := 32

/-- Device identifier of the first tty line (`TTY0` in `tty_public.h`). -/
def TTY0 : Nat := 0

/-- Device identifier of the second tty line (`TTY1` in `tty_public.h`). -/
def TTY1 : Nat := 1

/-- Modelled from the spec: the "set echo" function code `ECHOCONTROL` of
`tty_public.h`; only equality with it matters to the driver. -/
def ECHOCONTROL : Int := 1

/-- Modelled from the spec: the bounded FIFO byte queue of `queue/queue.h`
(repository code not under `src/`): fixed capacity, front of the list is the
head of the queue. -/
structure Queue where
  data : List Int
  maxsize : Nat
  deriving Repr, DecidableEq

/-- Modelled from the spec: `init_queue` resets a queue to empty with the
given capacity. -/
def init_queue (cap : Nat) : Queue := ⟨[], cap⟩

/-- Modelled from the spec: `enqueue` appends at the tail when there is
room and returns 0; on a full queue it leaves the queue unchanged and
returns `FULLQUE`. -/
def enqueue (q : Queue) (b : Int) : Queue × Int :=
  if q.data.length < q.maxsize then (⟨q.data ++ [b], q.maxsize⟩, 0)
  else (q, FULLQUE)

/-- Modelled from the spec: `dequeue` removes and returns the head byte; on
an empty queue it leaves the queue unchanged and returns `EMPTYQUE`. -/
def dequeue (q : Queue) : Queue × Int :=
  match q.data with
  | [] => (q, EMPTYQUE)
  | b :: rest => (⟨rest, q.maxsize⟩, b)

/-- Modelled from the spec: `queuecount` returns the current occupancy. -/
def queuecount (q : Queue) : Nat := q.data.length

/-- Observable side effects of the driver: hardware port writes, PIC
operations, interrupt-gate installation, `kprintf` and `debug_log`
appends. -/
inductive Effect where
  /-- `outpt(baseport+UART_TX, b)`: write byte `b` to the transmit register. -/
  | outTX (baseport : Nat) (b : Int)
  /-- `outpt(baseport+UART_IER, v)`: write `v` to the interrupt-enable register. -/
  | outIER (baseport : Nat) (v : Nat)
  /-- `set_intr_gate(n, handler)`: install the interrupt vector `n`. -/
  | setIntrGate (n : Nat)
  /-- `pic_enable_irq(irq)`: unmask interrupt-controller line `irq`. -/
  | picEnableIRQ (irq : Nat)
  /-- `pic_end_int()`: notify the PIC that its part is done. -/
  | picEndInt
  /-- `debug_log("*")` at ISR entry. -/
  | logStar
  /-- `debug_log("#")` in the ISR default branch. -/
  | logHash
  /-- `debug_log(">c")` in `ttyread` for a received byte. -/
  | logRecv (b : Int)
  /-- `debug_log("<c")` in `ttywrite` for a transmitted byte. -/
  | logSent (b : Int)
  /-- `kprintf("Bad TTY device table entry, dev %d\n", dev)` in `ttyinit`. -/
  | kprintfBadDev (dev : Nat)
  deriving Repr, DecidableEq

/-- The driver's software state: the three global queues
`Queue inQueue, outQueue, echoQueue;` of `tty.c` (shared by all lines) and
the per-device `struct tty` table `ttytab` (whose only field is
`echoflag`), read through `devtab[dev].dvdata`. -/
@[ext]
structure DriverState where
  inQueue : Queue
  outQueue : Queue
  echoQueue : Queue
  ttytab : Nat → Int

/-- The bytes written to the UART transmit register in an effect trace. -/
def txWrites (effs : List Effect) : List Int :=
  effs.filterMap fun e =>
    match e with
    | Effect.outTX _ b => some b
    | _ => none

/-- Receive part of the `UART_IIR_RDI` case of `irqinthandc`: read one byte
from `UART_RX` (the `rx` input), enqueue it into `inQueue`, and if the
line's `echoflag` is set also enqueue it into `echoQueue`; enqueue failures
are silently tolerated. -/
def rdiBody (dev : Nat) (rx : Int) (st : DriverState) : DriverState :=
  let st1 := { st with inQueue := (enqueue st.inQueue rx).1 }
  if st.ttytab dev ≠ 0 then
    { st1 with echoQueue := (enqueue st1.echoQueue rx).1 }
  else st1

/-- Body of the `UART_IIR_THRI` case of `irqinthandc`: if `echoQueue` is
non-empty, dequeue from it and write the byte to `UART_TX`; then if
`outQueue` is non-empty, dequeue from it and write that byte to `UART_TX`
as well (both `if`s execute in the same invocation). -/
def thriBody (baseport : Nat) (st : DriverState) : DriverState × List Effect :=
  let p1 :=
    if queuecount st.echoQueue ≠ 0 then
      let d := dequeue st.echoQueue
      ({ st with echoQueue := d.1 }, [Effect.outTX baseport d.2])
    else (st, [])
  let p2 :=
    if queuecount p1.1.outQueue ≠ 0 then
      let d := dequeue p1.1.outQueue
      ({ p1.1 with outQueue := d.1 }, [Effect.outTX baseport d.2])
    else (p1.1, [])
  (p2.1, p1.2 ++ p2.2)

/-- The common interrupt handler `irqinthandc(dev)` of `tty.c`.  Inputs
`iir` (the value read from `UART_IIR`) and `rx` (the byte that a read of
`UART_RX` yields) stand for the two hardware register reads.  The routine
acknowledges the PIC, logs a marker, then `switch (iir & UART_IIR_ID)`:
the `UART_IIR_RDI` case has no `break`, so after the receive code it falls
through into the `UART_IIR_THRI` case's transmit code; the default case
logs `#`.  Finally it re-enables receiver interrupts via `UART_IER`. -/
def irqinthandc (cfg : Nat → Nat) (dev : Nat) (iir : Nat) (rx : Int)
    (st : DriverState) : DriverState × List Effect :=
  let baseport := cfg dev
  let branch :=
    if iir &&& UART_IIR_ID = UART_IIR_RDI then
      thriBody baseport (rdiBody dev rx st)
    else if iir &&& UART_IIR_ID = UART_IIR_THRI then
      thriBody baseport st
    else (st, [Effect.logHash])
  (branch.1,
   Effect.picEndInt :: Effect.logStar :: branch.2
     ++ [Effect.outIER baseport UART_IER_RDI])

/-- `irq4inthandc()`: the COM1 handler, calls `irqinthandc(TTY0)`. -/
def irq4inthandc (cfg : Nat → Nat) (iir : Nat) (rx : Int)
    (st : DriverState) : DriverState × List Effect :=
  irqinthandc cfg TTY0 iir rx st

/-- `irq3inthandc()`: the COM2 handler, calls `irqinthandc(TTY1)`. -/
def irq3inthandc (cfg : Nat → Nat) (iir : Nat) (rx : Int)
    (st : DriverState) : DriverState × List Effect :=
  irqinthandc cfg TTY1 iir rx st

/-- `ttyinit(dev)` of `tty.c`: reset the three queues to empty with
capacity `MAXBUF`, clear the debug log, look up the device's base port
(`cfg` stands for `devtab[dev].dvbaseport`); on COM1 or COM2 install the
interrupt gate, unmask the PIC line, set `echoflag` to 1 and arm
receiver-data interrupts; on any other base port log the bad-entry message
and return without doing any of that. -/
def ttyinit (cfg : Nat → Nat) (dev : Nat) (st : DriverState) :
    DriverState × List Effect :=
  let st1 := { st with
    inQueue := init_queue MAXBUF
    outQueue := init_queue MAXBUF
    echoQueue := init_queue MAXBUF }
  let baseport := cfg dev
  if baseport = COM1_BASE then
    ({ st1 with ttytab := fun d => if d = dev then 1 else st1.ttytab d },
     [Effect.setIntrGate (COM1_IRQ + IRQ_TO_INT_N_SHIFT),
      Effect.picEnableIRQ COM1_IRQ,
      Effect.outIER baseport UART_IER_RDI])
  else if baseport = COM2_BASE then
    ({ st1 with ttytab := fun d => if d = dev then 1 else st1.ttytab d },
     [Effect.setIntrGate (COM2_IRQ + IRQ_TO_INT_N_SHIFT),
      Effect.picEnableIRQ COM2_IRQ,
      Effect.outIER baseport UART_IER_RDI])
  else
    (st1, [Effect.kprintfBadDev dev])

/-- `ttycontrol(dev, fncode, val)` of `tty.c`: `ECHOCONTROL` stores `val`
into the line's `echoflag` and returns 0; any other code returns -1 with
no state change. -/
def ttycontrol (dev : Nat) (fncode val : Int) (st : DriverState) :
    DriverState × Int :=
  if fncode = ECHOCONTROL then
    ({ st with ttytab := fun d => if d = dev then val else st.ttytab d }, 0)
  else (st, -1)

/-- Outcome of a completed `ttyread` call: final driver state, the bytes
stored into `buf`, the returned value, the effect trace, the CPU
interrupt-enable flag at return, and, for each dequeue attempt on the
receive queue, the interrupt-enable flag in force during that attempt. -/
structure ReadRes where
  st : DriverState
  buf : List Int
  ret : Int
  effs : List Effect
  ifFinal : Bool
  atts : List Bool

/-- The `while (i < nchar)` loop of `ttyread`, fuel-indexed: each iteration
saves `eflags`, executes `cli()`, attempts one `dequeue(&inQueue)` (the
attempt is recorded with the interrupt flag in force, always `false` here
because of the `cli`), on success stores the byte, logs it and advances
`i`, and finally restores the saved `eflags`.  `none` means the loop has
not returned within `fuel` iterations (the call is still spinning). -/
def ttyreadGo (nchar : Int) :
    Nat → Nat → Bool → DriverState → List Int → List Effect → List Bool →
    Option ReadRes
  | 0, i, iflag, st, bufacc, effs, atts =>
    if (i : Int) < nchar then none
    else some ⟨st, bufacc, nchar, effs, iflag, atts⟩
  | fuel + 1, i, iflag, st, bufacc, effs, atts =>
    if (i : Int) < nchar then
      let saved := iflag
      let d := dequeue st.inQueue
      let st' := { st with inQueue := d.1 }
      let atts' := atts ++ [false]
      if d.2 ≠ EMPTYQUE then
        ttyreadGo nchar fuel (i + 1) saved st' (bufacc ++ [d.2])
          (effs ++ [Effect.logRecv d.2]) atts'
      else
        ttyreadGo nchar fuel i saved st' bufacc effs atts'
    else some ⟨st, bufacc, nchar, effs, iflag, atts⟩

/-- `ttyread(dev, buf, nchar)` of `tty.c`: loop dequeuing from the shared
`inQueue` until `nchar` bytes have been stored, then return `nchar`.  The
routine touches no hardware register and does not consult `devtab`.
`iflag` is the CPU interrupt-enable flag at entry. -/
def ttyread (cfg : Nat → Nat) (dev : Nat) (nchar : Int) (iflag : Bool)
    (st : DriverState) (fuel : Nat) : Option ReadRes :=
  ttyreadGo nchar fuel 0 iflag st [] [] []

/-- Outcome of a completed `ttywrite` call, with the same instrumentation
as `ReadRes`: `atts` records the interrupt-enable flag in force at each
enqueue attempt on the transmit queue. -/
structure WriteRes where
  st : DriverState
  ret : Int
  effs : List Effect
  ifFinal : Bool
  atts : List Bool

/-- The `while (i < nchar)` loop of `ttywrite`, fuel-indexed: each
iteration attempts `enqueue(&outQueue, buf[i])` (recorded with the
interrupt flag currently in force — note the loop body contains no
`cli()`); on success it writes `UART_IER_THRI` to the interrupt-enable
register, logs the byte and advances `i`; either way it then executes
`sti()`.  `none` means the loop has not returned within `fuel`
iterations. -/
def ttywriteGo (baseport : Nat) (buf : List Int) (nchar : Int) :
    Nat → Nat → Bool → DriverState → List Effect → List Bool →
    Option WriteRes
  | 0, i, iflag, st, effs, atts =>
    if (i : Int) < nchar then none
    else some ⟨st, nchar, effs, iflag, atts⟩
  | fuel + 1, i, iflag, st, effs, atts =>
    if (i : Int) < nchar then
      let b := buf.getD i 0
      let e := enqueue st.outQueue b
      let st' := { st with outQueue := e.1 }
      let atts' := atts ++ [iflag]
      if e.2 ≠ FULLQUE then
        ttywriteGo baseport buf nchar fuel (i + 1) true st'
          (effs ++ [Effect.outIER baseport UART_IER_THRI, Effect.logSent b])
          atts'
      else
        ttywriteGo baseport buf nchar fuel i true st' effs atts'
    else some ⟨st, nchar, effs, iflag, atts⟩

/-- `ttywrite(dev, buf, nchar)` of `tty.c`: executes `cli()` once *before*
the loop (so the loop starts with interrupts disabled and a call that never
enters the loop returns with them still disabled), then loops enqueuing
the bytes of `buf` into the shared `outQueue`, kicking the transmit
interrupt after each successful enqueue, with `sti()` at the end of each
iteration; returns `nchar`. -/
def ttywrite (cfg : Nat → Nat) (dev : Nat) (buf : List Int) (nchar : Int)
    (st : DriverState) (fuel : Nat) : Option WriteRes :=
  ttywriteGo (cfg dev) buf nchar fuel 0 false st [] []

/-- Interrupt-flag trace of a retry-free `ttywrite` loop run of `fuel`
successful iterations: the first attempt sees the flag `iflag` in force at
loop entry, every later attempt sees `true` because of the `sti()` at the
end of the previous iteration. -/
def wAtts (iflag : Bool) : Nat → List Bool
  | 0 => []
  | fuel + 1 => iflag :: List.replicate fuel true

/-- Sample device table: TTY0 at COM1, TTY1 at COM2 (the standard
configuration). -/
def cfg0 : Nat → Nat := fun d => if d = 0 then COM1_BASE else COM2_BASE

/-- Sample device table whose base addresses match neither COM port. -/
def cfgBad : Nat → Nat := fun _ => 0

/-- Sample driver state: all three queues empty with capacity `MAXBUF`,
echo disabled on every line. -/
def st0 : DriverState :=
  ⟨init_queue MAXBUF, init_queue MAXBUF, init_queue MAXBUF, fun _ => 0⟩

/-- Concrete state for the receive-fallthrough scenario: transmit queue
holds the byte 65, echo queue empty, echo disabled. -/
def stC1 : DriverState := ⟨⟨[], 6⟩, ⟨[65], 6⟩, ⟨[], 6⟩, fun _ => 0⟩

/-- Concrete state for the transmit-ready scenario: echo queue holds 69,
transmit queue holds 79. -/
def stC2 : DriverState := ⟨⟨[], 6⟩, ⟨[79], 6⟩, ⟨[69], 6⟩, fun _ => 1⟩

/-- Concrete state reached after a receive interrupt for byte 113 arrives
on TTY1 starting from `st0` (echo disabled everywhere). -/
def stC3 : DriverState := (irqinthandc cfg0 TTY1 UART_IIR_RDI 113 st0).1

/-- Concrete state for the write-discipline scenario: receive queue holds
two bytes, everything else empty. -/
def stC6 : DriverState := ⟨⟨[1, 2], 6⟩, ⟨[], 6⟩, ⟨[], 6⟩, fun _ => 0⟩

/-- Concrete state for the blocking-read scenario: receive queue holds the
bytes 120, 121, 122 (in arrival order). -/
def stC4 : DriverState := ⟨⟨[120, 121, 122], 6⟩, ⟨[], 6⟩, ⟨[], 6⟩, fun _ => 0⟩

/-- C1: claimed mutually exclusive dispatch in `irqinthandc`.  On the code
the receive case of the `switch` has no `break` and falls through into the
transmit code: starting from `stC1` (transmit queue holding 65, echo off),
a receive interrupt (`iir & UART_IIR_ID = UART_IIR_RDI`) for byte 120 not
only enqueues 120 into the receive queue, it also dequeues 65 from the
transmit queue and writes it to the hardware transmit register in the very
same invocation. -/
theorem irq_recv_branch_also_transmits :
    txWrites (irqinthandc cfg0 TTY0 UART_IIR_RDI 120 stC1).2 = [65] ∧
    (irqinthandc cfg0 TTY0 UART_IIR_RDI 120 stC1).1.outQueue.data = [] ∧
    (irqinthandc cfg0 TTY0 UART_IIR_RDI 120 stC1).1.inQueue.data = [120] := by
  decide

/-- C2 counterexample: servicing a transmit-ready condition with both the
echo queue (69) and the transmit queue (79) non-empty writes *two* bytes to
the transmit register and dequeues the transmit queue as well, so "exactly
one byte is written ... and the transmit queue is left completely
unchanged" is false at this input. -/
theorem irq_thri_writes_both_queues :
    txWrites (irqinthandc cfg0 TTY0 UART_IIR_THRI 0 stC2).2 = [69, 79] ∧
    (irqinthandc cfg0 TTY0 UART_IIR_THRI 0 stC2).1.outQueue.data = [] ∧
    ¬ ((txWrites (irqinthandc cfg0 TTY0 UART_IIR_THRI 0 stC2).2).length = 1 ∧
       (irqinthandc cfg0 TTY0 UART_IIR_THRI 0 stC2).1.outQueue = stC2.outQueue) := by
  decide

/-- C2 amended: when `irqinthandc` services a transmit-ready condition with
both queues non-empty, it writes exactly two bytes to the hardware transmit
register — the echo queue's head first, then the transmit queue's head —
dequeuing one byte from each queue; the receive queue and the echo flags
are untouched. -/
theorem irq_thri_echo_first_then_tx (cfg : Nat → Nat) (dev : Nat)
    (iir : Nat) (rx : Int) (st : DriverState) (e o : Int) (eo oo : List Int)
    (hiir : iir &&& UART_IIR_ID = UART_IIR_THRI)
    (he : st.echoQueue.data = e :: eo) (ho : st.outQueue.data = o :: oo) :
    txWrites (irqinthandc cfg dev iir rx st).2 = [e, o] ∧
    (irqinthandc cfg dev iir rx st).1.echoQueue.data = eo ∧
    (irqinthandc cfg dev iir rx st).1.outQueue.data = oo ∧
    (irqinthandc cfg dev iir rx st).1.inQueue = st.inQueue ∧
    (irqinthandc cfg dev iir rx st).1.ttytab = st.ttytab := by
  simp [irqinthandc, hiir, UART_IIR_THRI, UART_IIR_RDI, thriBody,
    queuecount, dequeue, he, ho, txWrites]

/-- Witness for the amended C2 theorem at a concrete transmit-ready
invocation. -/
theorem irq_thri_echo_first_then_tx_witness :
    txWrites (irqinthandc cfg0 TTY0 2 0 stC2).2 = [69, 79] ∧
    (irqinthandc cfg0 TTY0 2 0 stC2).1.echoQueue.data = [] ∧
    (irqinthandc cfg0 TTY0 2 0 stC2).1.outQueue.data = [] ∧
    (irqinthandc cfg0 TTY0 2 0 stC2).1.inQueue = stC2.inQueue ∧
    (irqinthandc cfg0 TTY0 2 0 stC2).1.ttytab = stC2.ttytab :=
  irq_thri_echo_first_then_tx cfg0 TTY0 2 0 stC2 69 79 [] [] (by decide)
    rfl rfl

/-- C3 counterexample: the three queues are single process-wide globals
shared by both lines, not per-line instances.  Starting from `st0` (all
queues empty), a receive interrupt for byte 113 arriving on TTY1 changes
the receive queue, and a subsequent `ttyread` on TTY0 drains that very
byte — so an interrupt on one line does not leave "the queues belonging to
the other line" unchanged. -/
theorem queues_shared_across_lines :
    stC3.inQueue.data = [113] ∧ st0.inQueue.data = [] ∧
    (ttyread cfg0 TTY0 1 true stC3 1).map (fun r => (r.buf, r.ret)) =
      some ([113], 1) := by
  decide

/-- C6: claimed critical-section discipline.  In `ttywrite` the `cli()`
executes once before the loop and the `sti()` at the end of each iteration,
so only the first enqueue attempt runs with interrupt delivery suspended:
writing two bytes from `stC6` records the attempt flags `[false, true]` —
the second attempt ran with interrupts enabled.  (`ttyread`, by contrast,
brackets every dequeue attempt with `cli`/`set_eflags`: its attempt flags
are `[false, false]`.) -/
theorem ttywrite_second_attempt_unprotected :
    (ttywrite cfg0 TTY0 [97, 98] 2 stC6 2).map (fun r => (r.atts, r.ifFinal)) =
      some ([false, true], true) ∧
    (ttyread cfg0 TTY0 2 true stC6 2).map (fun r => (r.atts, r.ifFinal)) =
      some ([false, false], true) := by
  decide

/-- C7: `ttycontrol` recognizes exactly one function code: `ECHOCONTROL`
stores `val` into the line's echo flag and returns 0 leaving the queues
untouched; any other code returns -1 and leaves the whole driver state
unchanged. -/
theorem ttycontrol_echo_only (dev : Nat) (fncode val : Int)
    (st : DriverState) :
    (fncode = ECHOCONTROL →
      (ttycontrol dev fncode val st).2 = 0 ∧
      (ttycontrol dev fncode val st).1.ttytab dev = val ∧
      (ttycontrol dev fncode val st).1.inQueue = st.inQueue ∧
      (ttycontrol dev fncode val st).1.outQueue = st.outQueue ∧
      (ttycontrol dev fncode val st).1.echoQueue = st.echoQueue) ∧
    (fncode ≠ ECHOCONTROL →
      (ttycontrol dev fncode val st).2 = -1 ∧
      (ttycontrol dev fncode val st).1 = st) := by
  constructor <;> intro h <;> simp [ttycontrol, h]

/-- Witness for `ttycontrol_echo_only` at the echo code and at an
unrecognized code. -/
theorem ttycontrol_echo_only_witness :
    (ttycontrol TTY0 ECHOCONTROL 0 st0).2 = 0 ∧
    (ttycontrol TTY0 5 0 st0).2 = -1 :=
  ⟨((ttycontrol_echo_only TTY0 ECHOCONTROL 0 st0).1 rfl).1,
   ((ttycontrol_echo_only TTY0 5 0 st0).2 (by decide)).1⟩

/-- C10: `ttywrite` with a non-positive byte count returns `nchar`
immediately — no byte is enqueued, no hardware register is written, no
enqueue attempt is made — but because the `cli()` precedes the loop while
the matching `sti()` sits inside the never-executed loop body, the call
returns with CPU interrupt delivery still disabled (`ifFinal = false`). -/
theorem ttywrite_nonpositive_leaves_interrupts_off (cfg : Nat → Nat)
    (dev : Nat) (buf : List Int) (nchar : Int) (st : DriverState)
    (fuel : Nat) (h : nchar ≤ 0) :
    ttywrite cfg dev buf nchar st fuel = some ⟨st, nchar, [], false, []⟩ := by
  have h0 : ¬ (((0 : Nat) : Int) < nchar) := by omega
  cases fuel <;>
    · simp only [ttywrite, ttywriteGo]
      rw [if_neg h0]

/-- Witness for `ttywrite_nonpositive_leaves_interrupts_off` at a concrete
negative count. -/
theorem ttywrite_nonpositive_leaves_interrupts_off_witness :
    ttywrite cfg0 TTY0 [5] (-3) st0 7 = some ⟨st0, -3, [], false, []⟩ :=
  ttywrite_nonpositive_leaves_interrupts_off cfg0 TTY0 [5] (-3) st0 7
    (by decide)

/-- C8: `ttyinit` on a device whose base address matches neither COM1 nor
COM2 emits only the bad-entry log message — no interrupt gate is
installed, no PIC line is unmasked, no interrupt-enable register is
written, and no echo flag is touched; on a recognized address the echo
flag is set to 1 and the receiver-data interrupt is armed. -/
theorem ttyinit_bad_entry_gives_up (cfg : Nat → Nat) (dev : Nat)
    (st : DriverState) :
    (cfg dev ≠ COM1_BASE → cfg dev ≠ COM2_BASE →
      (ttyinit cfg dev st).2 = [Effect.kprintfBadDev dev] ∧
      (ttyinit cfg dev st).1.ttytab = st.ttytab ∧
      (∀ n, Effect.setIntrGate n ∉ (ttyinit cfg dev st).2) ∧
      (∀ irq, Effect.picEnableIRQ irq ∉ (ttyinit cfg dev st).2) ∧
      (∀ b v, Effect.outIER b v ∉ (ttyinit cfg dev st).2)) ∧
    (cfg dev = COM1_BASE ∨ cfg dev = COM2_BASE →
      (ttyinit cfg dev st).1.ttytab dev = 1 ∧
      Effect.outIER (cfg dev) UART_IER_RDI ∈ (ttyinit cfg dev st).2) := by
  constructor
  · intro h1 h2
    simp [ttyinit, h1, h2]
  · intro h
    rcases h with h | h <;>
      simp [ttyinit, h, COM1_BASE, COM2_BASE]

/-- Witness for `ttyinit_bad_entry_gives_up`: a bad device table and the
standard one. -/
theorem ttyinit_bad_entry_gives_up_witness :
    (ttyinit cfgBad TTY0 st0).2 = [Effect.kprintfBadDev TTY0] ∧
    (ttyinit cfg0 TTY0 st0).1.ttytab TTY0 = 1 :=
  ⟨((ttyinit_bad_entry_gives_up cfgBad TTY0 st0).1 (by decide) (by decide)).1,
   ((ttyinit_bad_entry_gives_up cfg0 TTY0 st0).2 (Or.inl (by decide))).1⟩

/-- C9: for a recognized base address `ttyinit` is idempotent on the
driver state — a second invocation yields exactly the state of the first —
and the resulting state has all three queues empty with capacity
`MAXBUF = 6` and the device's echo flag enabled. -/
theorem ttyinit_idempotent (cfg : Nat → Nat) (dev : Nat) (st : DriverState)
    (h : cfg dev = COM1_BASE ∨ cfg dev = COM2_BASE) :
    (ttyinit cfg dev (ttyinit cfg dev st).1).1 = (ttyinit cfg dev st).1 ∧
    (ttyinit cfg dev st).1.inQueue = ⟨[], 6⟩ ∧
    (ttyinit cfg dev st).1.outQueue = ⟨[], 6⟩ ∧
    (ttyinit cfg dev st).1.echoQueue = ⟨[], 6⟩ ∧
    (ttyinit cfg dev st).1.ttytab dev = 1 := by
  rcases h with h | h <;>
    · refine ⟨?_, by simp [ttyinit, h, COM1_BASE, COM2_BASE, init_queue, MAXBUF],
        by simp [ttyinit, h, COM1_BASE, COM2_BASE, init_queue, MAXBUF],
        by simp [ttyinit, h, COM1_BASE, COM2_BASE, init_queue, MAXBUF],
        by simp [ttyinit, h, COM1_BASE, COM2_BASE]⟩
      apply DriverState.ext <;>
        simp [ttyinit, h, COM1_BASE, COM2_BASE]
      funext d
      by_cases hd : d = dev <;> simp [hd]

/-- Witness for `ttyinit_idempotent` on the standard device table. -/
theorem ttyinit_idempotent_witness :
    (ttyinit cfg0 TTY0 (ttyinit cfg0 TTY0 st0).1).1 = (ttyinit cfg0 TTY0 st0).1 ∧
    (ttyinit cfg0 TTY0 st0).1.inQueue = ⟨[], 6⟩ ∧
    (ttyinit cfg0 TTY0 st0).1.outQueue = ⟨[], 6⟩ ∧
    (ttyinit cfg0 TTY0 st0).1.echoQueue = ⟨[], 6⟩ ∧
    (ttyinit cfg0 TTY0 st0).1.ttytab TTY0 = 1 :=
  ttyinit_idempotent cfg0 TTY0 st0 (Or.inl (by decide))

/-- The interrupt handler never touches the per-line `struct tty` table:
`irqinthandc` only reads `echoflag` and mutates queues. -/
theorem irqinthandc_ttytab (cfg : Nat → Nat) (dev : Nat) (iir : Nat)
    (rx : Int) (st : DriverState) :
    (irqinthandc cfg dev iir rx st).1.ttytab = st.ttytab := by
  simp only [irqinthandc, thriBody, rdiBody, queuecount]
  split_ifs <;> rfl

/-- A completed `ttyread` loop leaves the `ttytab` table exactly as it
found it. -/
theorem ttyreadGo_ttytab (nchar : Int) :
    ∀ (fuel i : Nat) (iflag : Bool) (st : DriverState) (bufacc : List Int)
      (effs : List Effect) (atts : List Bool) (r : ReadRes),
      ttyreadGo nchar fuel i iflag st bufacc effs atts = some r →
      r.st.ttytab = st.ttytab := by
  intro fuel
  induction fuel with
  | zero =>
    intro i iflag st bufacc effs atts r h
    simp only [ttyreadGo] at h
    split at h
    · exact Option.noConfusion h
    · cases h; rfl
  | succ fuel ih =>
    intro i iflag st bufacc effs atts r h
    simp only [ttyreadGo] at h
    split at h
    · split at h
      · have hx := ih _ _ _ _ _ _ _ h
        exact hx
      · have hx := ih _ _ _ _ _ _ _ h
        exact hx
    · cases h; rfl

/-- A completed `ttywrite` loop leaves the `ttytab` table exactly as it
found it. -/
theorem ttywriteGo_ttytab (baseport : Nat) (buf : List Int) (nchar : Int) :
    ∀ (fuel i : Nat) (iflag : Bool) (st : DriverState)
      (effs : List Effect) (atts : List Bool) (r : WriteRes),
      ttywriteGo baseport buf nchar fuel i iflag st effs atts = some r →
      r.st.ttytab = st.ttytab := by
  intro fuel
  induction fuel with
  | zero =>
    intro i iflag st effs atts r h
    simp only [ttywriteGo] at h
    split at h
    · exact Option.noConfusion h
    · cases h; rfl
  | succ fuel ih =>
    intro i iflag st effs atts r h
    simp only [ttywriteGo] at h
    split at h
    · split at h
      · have hx := ih _ _ _ _ _ _ h
        exact hx
      · have hx := ih _ _ _ _ _ _ h
        exact hx
    · cases h; rfl

/-- C3 amended: the receive, transmit and echo queues are single
process-wide globals shared by both lines — an operation on one line acts
on the same queue instances the other line uses (see the counterexample) —
and only the per-line `struct tty` echo flag is line-private: every driver
operation on device `dev` (`irqinthandc`, `ttyinit`, `ttycontrol`, a
completed `ttyread` or `ttywrite`) leaves the other device's echo flag
unchanged. -/
theorem other_line_echo_flag_private (cfg : Nat → Nat) (dev d' : Nat)
    (iir : Nat) (rx : Int) (fncode val : Int) (st : DriverState)
    (buf : List Int) (nchar : Int) (iflag : Bool) (fuel : Nat)
    (hne : d' ≠ dev) :
    (irqinthandc cfg dev iir rx st).1.ttytab d' = st.ttytab d' ∧
    (ttyinit cfg dev st).1.ttytab d' = st.ttytab d' ∧
    (ttycontrol dev fncode val st).1.ttytab d' = st.ttytab d' ∧
    (∀ r, ttyread cfg dev nchar iflag st fuel = some r →
      r.st.ttytab d' = st.ttytab d') ∧
    (∀ r, ttywrite cfg dev buf nchar st fuel = some r →
      r.st.ttytab d' = st.ttytab d') := by
  refine ⟨by rw [irqinthandc_ttytab], ?_, ?_, ?_, ?_⟩
  · simp only [ttyinit]
    split_ifs <;> simp [hne]
  · simp only [ttycontrol]
    split_ifs <;> simp [hne]
  · intro r h
    rw [ttyreadGo_ttytab nchar fuel 0 iflag st [] [] [] r h]
  · intro r h
    rw [ttywriteGo_ttytab (cfg dev) buf nchar fuel 0 false st [] [] r h]

/-- Witness for `other_line_echo_flag_private` with TTY0 operations and
TTY1 as the other line. -/
theorem other_line_echo_flag_private_witness :
    (irqinthandc cfg0 TTY0 4 120 st0).1.ttytab TTY1 = st0.ttytab TTY1 ∧
    (ttyinit cfg0 TTY0 st0).1.ttytab TTY1 = st0.ttytab TTY1 ∧
    (ttycontrol TTY0 5 0 st0).1.ttytab TTY1 = st0.ttytab TTY1 ∧
    (∀ r, ttyread cfg0 TTY0 1 true st0 3 = some r →
      r.st.ttytab TTY1 = st0.ttytab TTY1) ∧
    (∀ r, ttywrite cfg0 TTY0 [7] 1 st0 3 = some r →
      r.st.ttytab TTY1 = st0.ttytab TTY1) :=
  other_line_echo_flag_private cfg0 TTY0 TTY1 4 120 5 0 st0 [7] 1 true 3
    (by decide)

/-- If the receive queue already holds at least `fuel` non-negative bytes
and `fuel` more bytes are owed (`i + fuel = nchar`), the `ttyread` loop
completes, consuming exactly the first `fuel` queue bytes in FIFO order,
storing them in order, logging each one, and performing every dequeue
attempt with interrupts disabled. -/
theorem ttyreadGo_completes (nchar : Int) :
    ∀ (fuel i : Nat) (iflag : Bool) (st : DriverState) (bufacc : List Int)
      (effs : List Effect) (atts : List Bool),
      (i : Int) + (fuel : Int) = nchar →
      fuel ≤ st.inQueue.data.length →
      (∀ b ∈ st.inQueue.data, 0 ≤ b) →
      ttyreadGo nchar fuel i iflag st bufacc effs atts =
        some ⟨{ st with
                inQueue := ⟨st.inQueue.data.drop fuel, st.inQueue.maxsize⟩ },
              bufacc ++ st.inQueue.data.take fuel, nchar,
              effs ++ (st.inQueue.data.take fuel).map Effect.logRecv,
              iflag, atts ++ List.replicate fuel false⟩ := by
  intro fuel
  induction fuel with
  | zero =>
    intro i iflag st bufacc effs atts hsum _ _
    have hni : ¬ ((i : Int) < nchar) := by omega
    simp [ttyreadGo, hni]
  | succ fuel ih =>
    intro i iflag st bufacc effs atts hsum hlen hpos
    have hi : (i : Int) < nchar := by omega
    rcases hdata : st.inQueue.data with _ | ⟨b, rest⟩
    · rw [hdata] at hlen
      simp at hlen
    · have hb : ¬ (b = EMPTYQUE) := by
        have hb0 := hpos b (by rw [hdata]; exact List.mem_cons_self _ _)
        simp only [EMPTYQUE]
        omega
      have hlen' : fuel ≤ rest.length := by
        rw [hdata] at hlen
        simpa using hlen
      have hstep : ttyreadGo nchar (fuel + 1) i iflag st bufacc effs atts =
          ttyreadGo nchar fuel (i + 1) iflag
            { st with inQueue := ⟨rest, st.inQueue.maxsize⟩ }
            (bufacc ++ [b]) (effs ++ [Effect.logRecv b]) (atts ++ [false]) := by
        simp [ttyreadGo, hi, dequeue, hdata, hb]
      rw [hstep, ih (i + 1) iflag _ _ _ _ (by push_cast; push_cast at hsum; omega)
        hlen' (fun b' hb' => hpos b' (by rw [hdata]; exact List.mem_cons_of_mem _ hb'))]
      simp [hdata, List.replicate_succ]

/-- While the receive queue is empty and bytes are still owed, the
`ttyread` loop makes no progress: no amount of fuel lets it return
(`ttyread` spins indefinitely when no data arrives). -/
theorem ttyreadGo_empty_spins (nchar : Int) :
    ∀ (fuel i : Nat) (iflag : Bool) (st : DriverState) (bufacc : List Int)
      (effs : List Effect) (atts : List Bool),
      st.inQueue.data = [] → (i : Int) < nchar →
      ttyreadGo nchar fuel i iflag st bufacc effs atts = none := by
  intro fuel
  induction fuel with
  | zero =>
    intro i iflag st bufacc effs atts hemp hi
    simp [ttyreadGo, hi]
  | succ fuel ih =>
    intro i iflag st bufacc effs atts hemp hi
    have hstep : ttyreadGo nchar (fuel + 1) i iflag st bufacc effs atts =
        ttyreadGo nchar fuel i iflag st bufacc effs (atts ++ [false]) := by
      simp [ttyreadGo, hi, dequeue, hemp]
    rw [hstep]
    exact ih i iflag st bufacc effs (atts ++ [false]) hemp hi

/-- C4: with `nchar ≥ 0`, a `ttyread(dev, buf, nchar)` call (1) once the
receive queue holds at least `nchar` bytes, returns exactly `nchar`; the
bytes stored into `buf` are exactly the first `nchar` bytes of the receive
queue in FIFO arrival order; and (2) while the receive queue is empty it
never returns — no iteration bound makes it give up with fewer bytes than
requested. -/
theorem ttyread_blocking_fifo (cfg : Nat → Nat) (dev : Nat) (nchar : Int)
    (iflag : Bool) (st : DriverState) (h0 : 0 ≤ nchar)
    (hpos : ∀ b ∈ st.inQueue.data, 0 ≤ b) :
    (nchar.toNat ≤ st.inQueue.data.length →
      ttyread cfg dev nchar iflag st nchar.toNat =
        some ⟨{ st with
                inQueue := ⟨st.inQueue.data.drop nchar.toNat,
                            st.inQueue.maxsize⟩ },
              st.inQueue.data.take nchar.toNat, nchar,
              (st.inQueue.data.take nchar.toNat).map Effect.logRecv,
              iflag, List.replicate nchar.toNat false⟩) ∧
    (st.inQueue.data = [] → 0 < nchar →
      ∀ fuel, ttyread cfg dev nchar iflag st fuel = none) := by
  constructor
  · intro hlen
    have hc := ttyreadGo_completes nchar nchar.toNat 0 iflag st [] [] []
      (by omega) hlen hpos
    simpa [ttyread] using hc
  · intro hemp hp fuel
    exact ttyreadGo_empty_spins nchar fuel 0 iflag st [] [] [] hemp (by omega)

/-- Witness for `ttyread_blocking_fifo`: reading three bytes from a queue
holding 120, 121, 122 yields exactly those bytes in order. -/
theorem ttyread_blocking_fifo_witness :
    (ttyread cfg0 TTY0 3 true stC4 (Int.toNat 3)).map
      (fun r => (r.buf, r.ret)) = some ([120, 121, 122], 3) := by
  rw [(ttyread_blocking_fifo cfg0 TTY0 3 true stC4 (by decide)
    (by decide)).1 (by decide)]
  rfl

/-- After the first iteration every attempt of a retry-free write run sees
interrupts enabled. -/
theorem wAtts_true (fuel : Nat) :
    wAtts true fuel = List.replicate fuel true := by
  cases fuel <;> simp [wAtts, List.replicate_succ]

set_option maxRecDepth 4000 in
/-- If the transmit queue has room for the `fuel` bytes still owed
(`i + fuel = buf.length`), the `ttywrite` loop completes: the remaining
bytes of `buf` are appended to the transmit queue in their original order
and each successful enqueue is followed by one `UART_IER_THRI` write. -/
theorem ttywriteGo_completes (baseport : Nat) (buf : List Int) :
    ∀ (fuel i : Nat) (iflag : Bool) (st : DriverState)
      (effs : List Effect) (atts : List Bool),
      i + fuel = buf.length →
      st.outQueue.data.length + fuel ≤ st.outQueue.maxsize →
      ttywriteGo baseport buf (buf.length : Int) fuel i iflag st effs atts =
        some ⟨{ st with
                outQueue := ⟨st.outQueue.data ++ buf.drop i,
                             st.outQueue.maxsize⟩ },
              (buf.length : Int),
              effs ++ (buf.drop i).bind
                (fun b => [Effect.outIER baseport UART_IER_THRI,
                           Effect.logSent b]),
              (if fuel = 0 then iflag else true),
              atts ++ wAtts iflag fuel⟩ := by
  intro fuel
  induction fuel with
  | zero =>
    intro i iflag st effs atts hsum _
    have hieq : i = buf.length := by omega
    subst hieq
    have hni : ¬ ((buf.length : Int) < (buf.length : Int)) := by omega
    simp [ttywriteGo, hni, wAtts, List.drop_length]
  | succ fuel ih =>
    intro i iflag st effs atts hsum hroom
    have hib : i < buf.length := by omega
    have hi : (i : Int) < (buf.length : Int) := by omega
    have hroom1 : st.outQueue.data.length < st.outQueue.maxsize := by omega
    have hget : buf[i]? = some buf[i] := List.getElem?_eq_getElem hib
    have hstep : ttywriteGo baseport buf (buf.length : Int) (fuel + 1) i
          iflag st effs atts =
        ttywriteGo baseport buf (buf.length : Int) fuel (i + 1) true
          { st with outQueue := ⟨st.outQueue.data ++ [buf[i]],
                                 st.outQueue.maxsize⟩ }
          (effs ++ [Effect.outIER baseport UART_IER_THRI,
                    Effect.logSent buf[i]])
          (atts ++ [iflag]) := by
      simp [ttywriteGo, hi, enqueue, hroom1, FULLQUE, hget]
    have hroom' :
        ({ st with outQueue := ⟨st.outQueue.data ++ [buf[i]],
            st.outQueue.maxsize⟩ } :
          DriverState).outQueue.data.length + fuel ≤
        ({ st with outQueue := ⟨st.outQueue.data ++ [buf[i]],
            st.outQueue.maxsize⟩ } :
          DriverState).outQueue.maxsize := by
      simp
      omega
    rw [hstep, ih (i + 1) true _ _ _ (by omega) hroom']
    have hdrop : buf.drop i = buf[i] :: buf.drop (i + 1) :=
      List.drop_eq_getElem_cons hib
    rw [hdrop]
    simp [wAtts, wAtts_true, List.replicate_succ]
    constructor
    · rw [hdrop]
      rfl
    · cases fuel <;> simp [List.replicate_succ]

/-- While the transmit queue is full and bytes are still owed, the
`ttywrite` loop keeps retrying the same byte: no amount of fuel lets it
return, no byte is dropped and no error is handed to the caller. -/
theorem ttywriteGo_full_spins (baseport : Nat) (buf : List Int)
    (nchar : Int) :
    ∀ (fuel i : Nat) (iflag : Bool) (st : DriverState)
      (effs : List Effect) (atts : List Bool),
      st.outQueue.maxsize ≤ st.outQueue.data.length →
      (i : Int) < nchar →
      ttywriteGo baseport buf nchar fuel i iflag st effs atts = none := by
  intro fuel
  induction fuel with
  | zero =>
    intro i iflag st effs atts hfull hi
    simp [ttywriteGo, hi]
  | succ fuel ih =>
    intro i iflag st effs atts hfull hi
    have hnotroom : ¬ (st.outQueue.data.length < st.outQueue.maxsize) := by
      omega
    have hstep : ttywriteGo baseport buf nchar (fuel + 1) i iflag st effs
          atts =
        ttywriteGo baseport buf nchar fuel i true st effs (atts ++ [iflag]) := by
      simp [ttywriteGo, hi, enqueue, hnotroom]
    rw [hstep]
    exact ih i true st effs (atts ++ [iflag]) hfull hi

/-- C5: with `nchar = |buf| ≥ 0`, a `ttywrite(dev, buf, nchar)` call
(1) when the transmit queue has room, returns `nchar` having appended all
`nchar` bytes of `buf` to the transmit queue in their original order and
having written the transmit-interrupt-enable bit to the hardware after
each successful enqueue; and (2) when the transmit queue is full it keeps
retrying the same byte — it never drops a byte and never returns an error
to the caller. -/
theorem ttywrite_enqueues_all_kicks_tx (cfg : Nat → Nat) (dev : Nat)
    (buf : List Int) (nchar : Int) (st : DriverState)
    (hn : nchar = (buf.length : Int)) :
    (st.outQueue.data.length + buf.length ≤ st.outQueue.maxsize →
      ttywrite cfg dev buf nchar st buf.length =
        some ⟨{ st with
                outQueue := ⟨st.outQueue.data ++ buf,
                             st.outQueue.maxsize⟩ },
              nchar,
              buf.bind (fun b => [Effect.outIER (cfg dev) UART_IER_THRI,
                Effect.logSent b]),
              (if buf.length = 0 then false else true),
              wAtts false buf.length⟩) ∧
    (st.outQueue.maxsize ≤ st.outQueue.data.length → 0 < nchar →
      ∀ fuel, ttywrite cfg dev buf nchar st fuel = none) := by
  constructor
  · intro hroom
    have hc := ttywriteGo_completes (cfg dev) buf buf.length 0 false st [] []
      (by omega) hroom
    simp only [ttywrite, hn]
    simpa using hc
  · intro hfull hp fuel
    exact ttywriteGo_full_spins (cfg dev) buf nchar fuel 0 false st [] [] hfull
      (by omega)

/-- Witness for `ttywrite_enqueues_all_kicks_tx`: writing the two bytes
10, 11 into an empty transmit queue enqueues both in order and kicks the
transmit interrupt after each. -/
theorem ttywrite_enqueues_all_kicks_tx_witness :
    (ttywrite cfg0 TTY0 [10, 11] 2 st0 2).map
      (fun r => (r.st.outQueue.data, r.ret, r.effs)) =
      some ([10, 11], 2,
        [Effect.outIER COM1_BASE UART_IER_THRI, Effect.logSent 10,
         Effect.outIER COM1_BASE UART_IER_THRI, Effect.logSent 11]) := by
  have h := (ttywrite_enqueues_all_kicks_tx cfg0 TTY0 [10, 11] 2 st0
    (by decide)).1 (by decide)
  exact (congrArg (Option.map fun r => (r.st.outQueue.data, r.ret, r.effs))
    h).trans rfl
